import Mathlib

/-
Verification of the theme build script of carbon-elements
(packages/themes/tasks/build.js).

The script is a pure text generator: from an ordered list of color-token
identifiers, an ordered collection of themes (each an ordered map from token
identifier to color value) and an optional metadata document, it synthesizes
three SCSS artifacts (a token-declarations file, a theme-switch mixin file
and a theme-maps file), formats each with an external formatter and writes
them in a fixed order.  The definitions below are a shallow embedding of that
script: JavaScript strings become Lean strings, objects with insertion order
become association lists, and the try/catch around metadata loading becomes
an explicit Except/Option analysis.
-/

set_option autoImplicit false
set_option maxRecDepth 8000

namespace Carbon

/-- Modelled from the spec: the Name Formatter (`formatTokenName` from
`packages/themes/lib`, which is not part of the sources under inspection)
converts a camelCase-like token identifier with an embedded digit group into
its public hyphenated lower-case form, inserting a separator before the digit
group (for example `interactive01` becomes `interactive-01`); characters of
unexpected shape pass through unchanged.  Helper walking the tail of the
identifier; the Boolean argument records whether the previous character was a
digit, so that only the first digit of a digit group receives a separator. -/
def formatGo (prevDigit : Bool) : List Char → List Char
  | [] => []
  | c :: cs =>
    if c.isDigit then
      (if prevDigit then [c] else ['-', c]) ++ formatGo true cs
    else if c.isUpper then
      '-' :: c.toLower :: formatGo false cs
    else
      c :: formatGo false cs

/-- Modelled from the spec: the Name Formatter itself.  The first character
never receives a leading separator; it is lower-cased if it is upper case. -/
def formatTokenName (token : String) : String :=
  match token.data with
  | [] => ""
  | c :: cs =>
    String.mk ((if c.isUpper then [c.toLower] else [c]) ++ formatGo c.isDigit cs)

/-- One metadata entry, the shape parsed from `metadata.yml`: a token name,
optional role strings, an optional alias (called `tokenAlias` here because
`alias` is a reserved word in Lean) and an optional deprecated flag. -/
structure MetaToken where
  name : String
  role : Option (List String) := none
  tokenAlias : Option String := none
  deprecated : Bool := false
deriving DecidableEq, Repr

/-- The metadata document once its token sequence is known to be present:
the argument type of `transformMetadata`. -/
structure Metadata where
  tokens : List MetaToken
deriving DecidableEq, Repr

/-- The raw result of parsing `metadata.yml`: the `tokens` key may be absent,
in which case `transformMetadata` (which begins with `metadata.tokens.map`)
throws inside the try block of `build`. -/
structure MetaDoc where
  tokens : Option (List MetaToken) := none
deriving DecidableEq, Repr

/-- The names of all metadata entries, in entry order: these are the
alternatives of the replacement regular expression
`new RegExp(metadata.tokens.map(token => token.name).join('|'), 'g')`. -/
def tokenNames (m : Metadata) : List String :=
  m.tokens.map (fun t => t.name)

/-- `headMatches pat s` is true when the character list `pat` is an initial
segment of `s`: a literal regex alternative `pat` matches at the current
position of `s`. -/
def headMatches : List Char → List Char → Bool
  | [], _ => true
  | _ :: _, [] => false
  | a :: as, b :: bs => a == b && headMatches as bs

/-- The first alternative of the alternation that matches at the current
position, in alternative (identifier) order, as a JavaScript regex
alternation resolves it. -/
def matchAlt (names : List String) (s : List Char) : Option String :=
  names.find? (fun n => headMatches n.data s)

/-- The replacement text for a matched token name: the formatted public name
wrapped in backticks and prefixed with the `$` sigil, as produced by the
callback of `role.replace(namesRegEx, match => ...)`. -/
def replacement (n : String) : List Char :=
  "`$".data ++ (formatTokenName n).data ++ "`".data

/-- Global replacement over a character list, following the semantics of
`String.prototype.replace` with a global alternation regex of literal
alternatives: scan left to right; at each position take the first alternative
that matches; on a match emit the replacement and continue after the matched
text (after an empty match the current character is kept and scanning
advances by one); a final empty match at the end of the string is also
honoured.  The `skip` argument counts characters still to be dropped because
they belong to the text of an earlier match; a fresh scan starts with
`skip = 0`. -/
def replaceAux (names : List String) : List Char → Nat → List Char
  | [], _ =>
    match matchAlt names [] with
    | some n => replacement n
    | none => []
  | _ :: cs, skip + 1 => replaceAux names cs skip
  | c :: cs, 0 =>
    match matchAlt names (c :: cs) with
    | none => c :: replaceAux names cs 0
    | some n =>
      match n.data with
      | [] => replacement n ++ c :: replaceAux names cs 0
      | _ :: ds => replacement n ++ replaceAux names cs ds.length

/-- Global replacement of a whole character list: a scan from the start. -/
def replaceGo (names : List String) (s : List Char) : List Char :=
  replaceAux names s 0

/-- `role.replace(namesRegEx, match => ..)` lifted to `String`. -/
def roleReplace (names : List String) (r : String) : String :=
  String.mk (replaceGo names r.data)

/-- The body of the `metadata.tokens.forEach` loop of `transformMetadata`:
every role string undergoes the global alternation replacement, and the
alias, when present, is rewritten by the name formatter.  The name and the
deprecated flag are untouched. -/
def transformToken (names : List String) (t : MetaToken) : MetaToken :=
  { t with
    role := t.role.map (fun rs => rs.map (roleReplace names)),
    tokenAlias := t.tokenAlias.map formatTokenName }

/-- `transformMetadata` from build.js: builds the alternation from all entry
names, then rewrites every entry in place. -/
def transformMetadata (m : Metadata) : Metadata :=
  ⟨m.tokens.map (transformToken (tokenNames m))⟩

/-- `FILE_BANNER` from build.js. -/
def FILE_BANNER : String :=
  "// Code generated by @carbon/themes. DO NOT EDIT.\n//\n// Copyright IBM Corp. 2018, 2018\n//\n// This source code is licensed under the Apache-2.0 license found in the\n// LICENSE file in the root directory of this source tree.\n//\n"

/-- `defaultTheme` from build.js. -/
def defaultTheme : String := "white"

/-- `defaultThemeMapName` from build.js. -/
def defaultThemeMapName : String := "$carbon--theme"

/-- A theme: the ordered key/value pairs of one theme object (JavaScript
object insertion order made explicit). -/
abbrev Theme := List (String × String)

/-- The theme collection: ordered (name, theme) pairs, the order of
`Object.keys(themes)`. -/
abbrev Themes := List (String × Theme)

/-- The doc-comment banner and opening line of one per-theme map declaration
(the initial value of `scssMap` in build.js). -/
def themeMapHeader (name : String) : String :=
  "/// Carbon\x27s " ++ name ++ " color theme\n/// @type Map\n/// @access public\n/// @group @carbon/themes\n$carbon--theme--" ++ name ++ ": (\n"

/-- One token line of a per-theme map:
`scssMap += `  ${name}: ${value},`; scssMap += '\n';`. -/
def themeEntryLine (kv : String × String) : String :=
  "  " ++ formatTokenName kv.1 ++ ": " ++ kv.2 ++ ",\n"

/-- One per-theme map declaration: header, one line per key of the theme in
the theme's own key order, then `) !default;` and a newline. -/
def themeMap (nt : String × Theme) : String :=
  (nt.2.foldl (fun acc kv => acc ++ themeEntryLine kv) (themeMapHeader nt.1))
    ++ ") !default;\n"

/-- `themeMaps` from build.js: the per-theme declarations joined with a
newline, in theme-collection iteration order. -/
def themeMaps (ts : Themes) : String :=
  String.intercalate "\n" (ts.map themeMap)

/-- The default-alias declaration appended after all per-theme maps in the
theme-maps artifact. -/
def defaultAliasBlock : String :=
  "\n\n/// Carbon\x27s default theme\n/// @type Map\n/// @access public\n/// @alias carbon--theme--" ++ defaultTheme ++ "\n/// @group @carbon/themes\n" ++ defaultThemeMapName ++ ": $carbon--theme--" ++ defaultTheme ++ " !default;\n"

/-- `themeMapsFile` from build.js: banner, newline, all per-theme maps, then
the default-alias declaration. -/
def themeMapsFile (ts : Themes) : String :=
  FILE_BANNER ++ "\n" ++ themeMaps ts ++ defaultAliasBlock

/-- The documentation comment of the theme mixin, up to and excluding the
`@mixin` line. -/
def mixinDocComment : String :=
  "/// Define theme variables from a map of tokens\n/// @access public\n/// @param \x7bMap\x7d $theme [" ++ defaultThemeMapName ++ "] - Map of theme tokens\n/// @content Pass in your custom declaration blocks to be used after the token maps set theming variables.\n///\n/// @example scss\n///   // Default usage\n///   @include carbon--theme();\n///\n///   // Alternate styling (not white theme)\n///   @include carbon--theme($carbon--theme--g90) \x7b\n///     // declarations...\n///   \x7d\n///\n///   // Inline styling\n///   @include carbon--theme($carbon--theme--g90) \x7b\n///     .my-dark-theme \x7b\n///       // declarations...\n///     \x7d\n///   \x7d\n///\n/// @group @carbon/themes\n"

/-- The initial value of the `themeMixin` accumulator in build.js: the doc
comment followed by the mixin signature with its single defaulted
parameter. -/
def mixinDoc : String :=
  mixinDocComment ++ "@mixin carbon--theme($theme: " ++ defaultThemeMapName ++ ") \x7b\n"

/-- One global rebind line of the mixin body:
`themeMixin += `    $${name}: map-get($theme, ${name}) !global;\n`;`. -/
def rebindLine (token : String) : String :=
  "    $" ++ formatTokenName token ++ ": map-get($theme, " ++ formatTokenName token ++ ") !global;\n"

/-- Everything appended to the mixin after the rebind loop: the content
block, the reset comment and the conditional self-include, and the closing
brace. -/
def mixinTail : String :=
  "\n  @content;\n\n  // Reset to default theme after apply in content\n  @if $theme != " ++ defaultThemeMapName ++ " \x7b\n    @include carbon--theme;\n  \x7d\n\x7d"

/-- `themeMixin` from build.js: doc comment and signature, one rebind line
per color token in color-token list order, then the tail. -/
def themeMixin (toks : List String) : String :=
  (toks.foldl (fun acc token => acc ++ rebindLine token) mixinDoc) ++ mixinTail

/-- `mixinsFile` from build.js. -/
def mixinsFile (toks : List String) : String :=
  FILE_BANNER ++ "\n@import \x27./theme-maps\x27;\n\n" ++ themeMixin toks

/-- The initial value of the `tokensFile` accumulator in build.js. -/
def tokensFileHeader : String :=
  FILE_BANNER ++ "\n@import \x27./theme-maps\x27;\n\n"

/-- The fixed type/access/group annotation block every token receives. -/
def fixedAnnotation : String :=
  "/// @type Color\n/// @access public\n/// @group @carbon/themes"

/-- The variable declaration line of one token:
`tokensFile += `\n$${name}: map-get(${defaultThemeMapName}, ${name}) !default;\n`;`. -/
def tokenDeclarationLine (token : String) : String :=
  "\n$" ++ formatTokenName token ++ ": map-get(" ++ defaultThemeMapName ++ ", " ++ formatTokenName token ++ ") !default;\n"

/-- `(metadata.tokens && metadata.tokens.find(tok => tok.name === token)) || {}`:
the metadata entry for a token, or an entry with all optional fields empty
when the metadata is absent or contains no entry for the token. -/
def findTokenData (metadata : Option Metadata) (token : String) : MetaToken :=
  match metadata with
  | none => { name := token }
  | some m => (m.tokens.find? (fun tok => tok.name == token)).getD { name := token }

/-- The documentation-comment part of one token's text in the
token-declarations file: an optional role comment (an empty role list is
present in JavaScript terms, so it still produces the comment line), the
fixed annotation block, an optional alias line (an empty alias string is
falsy in JavaScript and produces nothing) and an optional deprecated
line. -/
def tokenDocPart (metadata : Option Metadata) (token : String) : String :=
  (match (findTokenData metadata token).role with
    | some roles => "\n\n/// " ++ String.intercalate "; " roles ++ "\n"
    | none => "\n\n")
  ++ fixedAnnotation
  ++ (match (findTokenData metadata token).tokenAlias with
      | some a => if a.isEmpty then "" else "\n/// @alias " ++ a
      | none => "")
  ++ (if (findTokenData metadata token).deprecated then "\n/// @deprecated" else "")

/-- The whole text appended to the token-declarations file for one color
token: the documentation comment followed by the declaration line. -/
def tokenBlock (metadata : Option Metadata) (token : String) : String :=
  tokenDocPart metadata token ++ tokenDeclarationLine token

/-- `tokensFile` from build.js: the header followed by one block per color
token, appended in color-token list order. -/
def tokensFile (toks : List String) (metadata : Option Metadata) : String :=
  toks.foldl (fun acc token => acc ++ tokenBlock metadata token) tokensFileHeader

/-- The three synthesized artifact bodies of one run of `build`. -/
structure BuildOutputs where
  tokens : String
  mixins : String
  maps : String
deriving DecidableEq, Repr

/-- The metadata available after the try/catch at the top of `build`: a load
or parse failure is caught, and `transformMetadata` itself throws (before
returning) when the parsed document has no `tokens` sequence, which the same
catch block absorbs; in every failure case the `metadata` variable keeps its
initial empty-object value, modelled as `none`. -/
def loadMetadata (load : Except String MetaDoc) : Option Metadata :=
  match load with
  | .error _ => none
  | .ok doc =>
    match doc.tokens with
    | none => none
    | some l => some (transformMetadata ⟨l⟩)

/-- `build` from build.js, up to and excluding formatting and writing: the
three synthesized bodies as a function of the color-token list, the theme
collection and the metadata load result. -/
def build (toks : List String) (ts : Themes) (load : Except String MetaDoc) : BuildOutputs :=
  { tokens := tokensFile toks (loadMetadata load)
    mixins := mixinsFile toks
    maps := themeMapsFile ts }

/-- The three artifact files, identified. -/
inductive Artifact
  | tokens
  | mixins
  | maps
deriving DecidableEq, Repr

/-- The write phase of `build`: each body is formatted and written in the
fixed order tokens, mixins, maps; the formatter runs before the write of its
artifact, and a formatter failure propagates, so no later artifact is
formatted or written while earlier writes stay in place.  The result is the
list of performed writes (artifact and formatted text, in order) and the
error that aborted the run, if any. -/
def writePhase (fmt : String → Except String String) (out : BuildOutputs) :
    List (Artifact × String) × Option String :=
  match fmt out.tokens with
  | .error e => ([], some e)
  | .ok t =>
    match fmt out.mixins with
    | .error e => ([(Artifact.tokens, t)], some e)
    | .ok mx =>
      match fmt out.maps with
      | .error e => ([(Artifact.tokens, t), (Artifact.mixins, mx)], some e)
      | .ok mp => ([(Artifact.tokens, t), (Artifact.mixins, mx), (Artifact.maps, mp)], none)

/-- Concatenation of a list of strings, in order. -/
def concatAll : List String → String
  | [] => ""
  | s :: rest => s ++ concatAll rest

/-- Decides that the metadata carries an entry for a token: the condition
under which `findTokenData` returns something other than the empty entry. -/
def hasMetadata (metadata : Option Metadata) (token : String) : Bool :=
  match metadata with
  | none => false
  | some m => (m.tokens.find? (fun tok => tok.name == token)).isSome

/-- A character list is free of matches of the alternation: no alternative
matches at any position, including the final empty position. -/
def matchFree (names : List String) : List Char → Bool
  | [] => (matchAlt names []).isNone
  | c :: cs => (matchAlt names (c :: cs)).isNone && matchFree names cs

/-- A metadata entry is a fixed point of the normalization pass: all of its
role strings are free of matches of the alternation and its alias, when
present, is a fixed point of the name formatter. -/
def entryNormalized (names : List String) (t : MetaToken) : Bool :=
  (match t.role with
    | none => true
    | some rs => rs.all (fun r => matchFree names r.data))
  && (match t.tokenAlias with
      | none => true
      | some a => formatTokenName a == a)

/-- Metadata exhibiting double substitution: the token name `focus` is a
fixed point of the name formatter and occurs in its own role text, so a
second normalization pass rewrites the already-substituted text again. -/
def cexMeta : Metadata := ⟨[{ name := "focus", role := some ["focus"] }]⟩

/-- Metadata on which normalization is idempotent: the only token name,
`interactive01`, no longer occurs after it is rewritten to
`interactive-01`, and the alias `focus` is a fixed point of the name
formatter. -/
def idemMeta : Metadata :=
  ⟨[{ name := "interactive01",
      role := some ["the interactive01 color"],
      tokenAlias := some "focus" }]⟩

/-- A metadata entry for a token that the color-token list of the inertness
examples does not contain. -/
def inertEntry : MetaToken := { name := "foo" }

/-- A metadata entry for a listed token whose role text happens to contain
the absent entry's identifier. -/
def inertHost : MetaToken := { name := "bar", role := some ["foo"] }

/-- A parsed metadata document holding both the absent-token entry and its
host. -/
def c7MetaWith : MetaDoc := ⟨some [inertEntry, inertHost]⟩

/-- The same document with the absent-token entry removed. -/
def c7MetaWithout : MetaDoc := ⟨some [inertHost]⟩

/-- A formatter that fails exactly on the body "B": used to exercise the
write phase with a failure on the second artifact. -/
def failSecond : String → Except String String :=
  fun s => if s = "B" then Except.error "boom" else Except.ok s

theorem strData_append (a b : String) : (a ++ b).data = a.data ++ b.data := by
  cases a; cases b; rfl

theorem strExt {a b : String} (h : a.data = b.data) : a = b := by
  cases a; cases b; exact congrArg String.mk h

theorem strMk_data (s : String) : String.mk s.data = s := by
  cases s; rfl

theorem strAppend_assoc (a b c : String) : a ++ b ++ c = a ++ (b ++ c) :=
  strExt (by simp [strData_append])

theorem strAppend_empty (a : String) : a ++ "" = a :=
  strExt (by rw [strData_append]; exact List.append_nil _)

theorem foldl_append_concatAll {α : Type} (f : α → String) :
    ∀ (l : List α) (init : String),
      l.foldl (fun acc x => acc ++ f x) init = init ++ concatAll (l.map f) := by
  intro l
  induction l with
  | nil =>
    intro init
    simp [concatAll, strAppend_empty]
  | cons a t ih =>
    intro init
    simp only [List.foldl_cons, List.map_cons, concatAll]
    rw [ih, strAppend_assoc]

theorem map_eq_self_of_mem {α : Type} (f : α → α) :
    ∀ l : List α, (∀ a ∈ l, f a = a) → l.map f = l := by
  intro l
  induction l with
  | nil => intro _; rfl
  | cons a t ih =>
    intro h
    simp only [List.map_cons]
    rw [h a (by simp), ih (fun x hx => h x (by simp [hx]))]

theorem map_congr_mem {α β : Type} (f g : α → β) :
    ∀ l : List α, (∀ a ∈ l, f a = g a) → l.map f = l.map g := by
  intro l
  induction l with
  | nil => intro _; rfl
  | cons a t ih =>
    intro h
    simp only [List.map_cons]
    rw [h a (by simp), ih (fun x hx => h x (by simp [hx]))]

theorem find?_middle {α : Type} (p : α → Bool) (e : α) (he : p e = false) :
    ∀ (pre post : List α), (pre ++ e :: post).find? p = (pre ++ post).find? p := by
  intro pre post
  induction pre with
  | nil => simp [List.find?, he]
  | cons a t ih =>
    cases h : p a <;> simp [List.find?, h, ih]

theorem replaceAux_id (names : List String) :
    ∀ l : List Char, matchFree names l = true → replaceAux names l 0 = l := by
  intro l
  induction l with
  | nil =>
    intro h
    simp only [matchFree, Option.isNone_iff_eq_none] at h
    simp [replaceAux, h]
  | cons c cs ih =>
    intro h
    simp only [matchFree, Bool.and_eq_true, Option.isNone_iff_eq_none] at h
    simp [replaceAux, h.1, ih h.2]

theorem tokenNames_transformMetadata (m : Metadata) :
    tokenNames (transformMetadata m) = tokenNames m := by
  unfold tokenNames transformMetadata
  simp only [List.map_map]
  rfl

theorem roles_replace_id (ns : List String) (rs : List String)
    (h : rs.all (fun r => matchFree ns r.data) = true) :
    rs.map (roleReplace ns) = rs := by
  apply map_eq_self_of_mem
  intro r hr
  have hm : matchFree ns r.data = true := by
    rw [List.all_eq_true] at h
    exact h r hr
  unfold roleReplace replaceGo
  rw [replaceAux_id ns r.data hm]

theorem optionRole_id (ns : List String) (role : Option (List String))
    (h : (match role with
          | none => true
          | some rs => rs.all (fun r => matchFree ns r.data)) = true) :
    role.map (fun rs => rs.map (roleReplace ns)) = role := by
  cases role with
  | none => rfl
  | some rs =>
    show some (rs.map (roleReplace ns)) = some rs
    rw [roles_replace_id ns rs h]

theorem optionAlias_id (al : Option String)
    (h : (match al with
          | none => true
          | some a => formatTokenName a == a) = true) :
    al.map formatTokenName = al := by
  cases al with
  | none => rfl
  | some a =>
    show some (formatTokenName a) = some a
    rw [eq_of_beq h]

/-- Claim C1: the build function is deterministic in its inputs.  Two
generation runs with the same token-color list, theme collection and
metadata-load result produce the same three synthesized bodies, and with one
and the same formatter they also produce the same formatted write sequence
for all three artifacts. -/
theorem build_deterministic (toks1 toks2 : List String) (ts1 ts2 : Themes)
    (load1 load2 : Except String MetaDoc) (fmt : String → Except String String)
    (htoks : toks1 = toks2) (hts : ts1 = ts2) (hload : load1 = load2) :
    build toks1 ts1 load1 = build toks2 ts2 load2 ∧
    writePhase fmt (build toks1 ts1 load1) = writePhase fmt (build toks2 ts2 load2) := by
  subst htoks
  subst hts
  subst hload
  exact ⟨rfl, rfl⟩

theorem build_deterministic_witness :
    build ["interactive01"] [("white", [("interactive01", "#0f62fe")])] (Except.error "parse failure")
      = build ["interactive01"] [("white", [("interactive01", "#0f62fe")])] (Except.error "parse failure") ∧
    writePhase Except.ok
        (build ["interactive01"] [("white", [("interactive01", "#0f62fe")])] (Except.error "parse failure"))
      = writePhase Except.ok
        (build ["interactive01"] [("white", [("interactive01", "#0f62fe")])] (Except.error "parse failure")) :=
  build_deterministic _ _ _ _ _ _ Except.ok rfl rfl rfl

/-- Claim C2: the token-declarations artifact is the fixed header followed by
exactly one block per listed color token, in list order, whether or not the
token has metadata; every block ends in the declaration line
`$public-name: map-get($carbon--theme, public-name) !default;`, and a token
lacking metadata contributes only the fixed type/access/group annotation
block and that declaration line. -/
theorem tokensFile_structure (toks : List String) (metadata : Option Metadata) :
    tokensFile toks metadata = tokensFileHeader ++ concatAll (toks.map (tokenBlock metadata)) ∧
    (toks.map (tokenBlock metadata)).length = toks.length ∧
    defaultThemeMapName = "$carbon--theme" ∧
    (∀ token : String, tokenDeclarationLine token =
        "\n$" ++ formatTokenName token ++ ": map-get(" ++ defaultThemeMapName
          ++ ", " ++ formatTokenName token ++ ") !default;\n") ∧
    (∀ token : String,
        tokenBlock metadata token = tokenDocPart metadata token ++ tokenDeclarationLine token) ∧
    (∀ token : String, hasMetadata metadata token = false →
        tokenBlock metadata token = "\n\n" ++ fixedAnnotation ++ tokenDeclarationLine token) := by
  refine ⟨?_, by simp, rfl, fun token => rfl, fun token => rfl, ?_⟩
  · exact foldl_append_concatAll _ toks tokensFileHeader
  · intro token h
    have hd : tokenDocPart metadata token = "\n\n" ++ fixedAnnotation := by
      cases metadata with
      | none => simp [tokenDocPart, findTokenData, strAppend_empty]
      | some m =>
        simp only [hasMetadata] at h
        cases hf : m.tokens.find? (fun tok => tok.name == token) with
        | some v => rw [hf] at h; simp at h
        | none => simp [tokenDocPart, findTokenData, hf, strAppend_empty]
    calc tokenBlock metadata token
        = tokenDocPart metadata token ++ tokenDeclarationLine token := rfl
      _ = "\n\n" ++ fixedAnnotation ++ tokenDeclarationLine token := by rw [hd]

theorem tokensFile_structure_witness :
    hasMetadata (some (Metadata.mk [])) "focus" = false ∧
    tokenBlock (some (Metadata.mk [])) "focus"
      = "\n\n" ++ fixedAnnotation ++ tokenDeclarationLine "focus" :=
  ⟨by decide,
   (tokensFile_structure ["focus"] (some (Metadata.mk []))).2.2.2.2.2 "focus" (by decide)⟩

/-- Claim C3: the theme-maps artifact is the banner followed by exactly one
per-theme map declaration for each theme, joined in the theme collection's
iteration order, followed by exactly one default-alias declaration after all
per-theme maps; within a map, the token lines follow that theme's own key
order and each line reads `public-name: color-value,`. -/
theorem themeMapsFile_structure (ts : Themes) :
    themeMapsFile ts
      = FILE_BANNER ++ "\n" ++ String.intercalate "\n" (ts.map themeMap) ++ defaultAliasBlock ∧
    (ts.map themeMap).length = ts.length ∧
    (∀ nt : String × Theme,
        themeMap nt = themeMapHeader nt.1 ++ concatAll (nt.2.map themeEntryLine) ++ ") !default;\n") ∧
    (∀ kv : String × String,
        themeEntryLine kv = "  " ++ formatTokenName kv.1 ++ ": " ++ kv.2 ++ ",\n") ∧
    defaultAliasBlock
      = "\n\n/// Carbon\x27s default theme\n/// @type Map\n/// @access public\n/// @alias carbon--theme--"
          ++ defaultTheme ++ "\n/// @group @carbon/themes\n" ++ defaultThemeMapName
          ++ ": $carbon--theme--" ++ defaultTheme ++ " !default;\n" := by
  refine ⟨rfl, by simp, ?_, fun kv => rfl, rfl⟩
  intro nt
  unfold themeMap
  rw [foldl_append_concatAll]

/-- Claim C4: the generated theme-switch mixin has exactly one parameter
`$theme`, defaulting to the default-theme map name; its body first rebinds
every token of the color-token list, in list order, as a global variable
looked up from the supplied map, then yields the caller's content block, and
finally re-invokes itself with no argument under the condition that the
supplied map is not the default theme map. -/
theorem themeMixin_structure (toks : List String) :
    themeMixin toks
      = mixinDocComment ++ "@mixin carbon--theme($theme: " ++ defaultThemeMapName ++ ") \x7b\n"
          ++ concatAll (toks.map rebindLine)
          ++ "\n  @content;\n\n  // Reset to default theme after apply in content\n  @if $theme != "
          ++ defaultThemeMapName ++ " \x7b\n    @include carbon--theme;\n  \x7d\n\x7d" ∧
    (∀ token : String, rebindLine token =
        "    $" ++ formatTokenName token ++ ": map-get($theme, "
          ++ formatTokenName token ++ ") !global;\n") ∧
    defaultThemeMapName = "$carbon--theme" ∧
    mixinsFile toks = FILE_BANNER ++ "\n@import \x27./theme-maps\x27;\n\n" ++ themeMixin toks := by
  refine ⟨?_, fun token => rfl, rfl, rfl⟩
  rw [themeMixin, foldl_append_concatAll]
  apply strExt
  simp only [mixinDoc, mixinTail, strData_append, List.append_assoc]

/-- Claim C5: the Metadata Normalizer maps every entry to the entry with the
same name and deprecated flag, each role string rewritten by the global
alternation replacement built from all token identifiers in identifier
order (each match replaced by the formatted public name wrapped in backticks
and prefixed with the `$` sigil), and the alias, when present, replaced by
its formatted public name; it is total (raises no error), preserves the
number of entries and preserves the identifier list. -/
theorem transformMetadata_characterization (m : Metadata) :
    (transformMetadata m).tokens = m.tokens.map (fun t =>
      { name := t.name,
        role := t.role.map (fun rs => rs.map (roleReplace (tokenNames m))),
        tokenAlias := t.tokenAlias.map formatTokenName,
        deprecated := t.deprecated }) ∧
    (transformMetadata m).tokens.length = m.tokens.length ∧
    tokenNames (transformMetadata m) = tokenNames m := by
  refine ⟨rfl, ?_, tokenNames_transformMetadata m⟩
  unfold transformMetadata
  simp

/-- Claim C6, counterexample: the Metadata Normalizer is not idempotent.  On
the metadata whose single token `focus` (a fixed point of the name
formatter) occurs in its own role text, the first pass produces the role
text `|$focus|` (backticks shown as bars) and the second pass rewrites the
embedded occurrence of `focus` again, so applying the normalizer twice
differs from applying it once. -/
theorem transformMetadata_not_idempotent :
    transformMetadata (transformMetadata cexMeta) ≠ transformMetadata cexMeta := by
  decide

/-- Claim C6, amended: the Metadata Normalizer is idempotent on every
metadata set whose once-normalized entries are fixed points of the pass:
every role string of the normalized result is free of matches of the
token-identifier alternation, and every normalized alias is a fixed point of
the name formatter. -/
theorem transformMetadata_idem (m : Metadata)
    (h : (transformMetadata m).tokens.all (entryNormalized (tokenNames m)) = true) :
    transformMetadata (transformMetadata m) = transformMetadata m := by
  have key : ∀ t ∈ (transformMetadata m).tokens, transformToken (tokenNames m) t = t := by
    intro t ht
    have he : entryNormalized (tokenNames m) t = true := List.all_eq_true.mp h t ht
    unfold entryNormalized at he
    rw [Bool.and_eq_true] at he
    have hx := optionRole_id (tokenNames m) t.role he.1
    have hy := optionAlias_id t.tokenAlias he.2
    unfold transformToken
    rw [hx, hy]
  have hstep : transformMetadata (transformMetadata m) =
      Metadata.mk ((transformMetadata m).tokens.map
        (transformToken (tokenNames (transformMetadata m)))) := rfl
  rw [hstep, tokenNames_transformMetadata, map_eq_self_of_mem _ _ key]

theorem transformMetadata_idem_witness :
    (transformMetadata idemMeta).tokens.all (entryNormalized (tokenNames idemMeta)) = true ∧
    transformMetadata (transformMetadata idemMeta) = transformMetadata idemMeta :=
  ⟨by decide, transformMetadata_idem idemMeta (by decide)⟩

/-- Claim C7, counterexample: a metadata entry whose token identifier is
absent from the token set is not inert end to end.  Its identifier is an
alternative of the normalization regex, so its presence changes how the role
text of another, listed entry is normalized, and the token-declarations
artifact differs between a run with the entry and a run without it. -/
theorem absentEntryInfluencesArtifact :
    (build ["bar"] [] (Except.ok c7MetaWith)).tokens
      ≠ (build ["bar"] [] (Except.ok c7MetaWithout)).tokens := by
  decide

/-- Claim C7, amended: given the already-normalized metadata, an entry whose
token identifier is absent from the color-token list has no effect on the
token-declarations artifact: it is never the result of the per-token lookup
and none of its fields are emitted, so removing it leaves the artifact
unchanged. -/
theorem absentEntryInert (toks : List String) (pre post : List MetaToken) (e : MetaToken)
    (h : e.name ∉ toks) :
    tokensFile toks (some (Metadata.mk (pre ++ e :: post)))
      = tokensFile toks (some (Metadata.mk (pre ++ post))) := by
  unfold tokensFile
  rw [foldl_append_concatAll, foldl_append_concatAll]
  refine congrArg (tokensFileHeader ++ ·) (congrArg concatAll (map_congr_mem _ _ toks ?_))
  intro token ht
  have hne : e.name ≠ token := fun hh => h (hh ▸ ht)
  have hbeq : (e.name == token) = false := beq_eq_false_iff_ne.mpr hne
  have hf : (pre ++ e :: post).find? (fun tok => tok.name == token)
      = (pre ++ post).find? (fun tok => tok.name == token) :=
    find?_middle (fun tok => tok.name == token) e hbeq pre post
  simp only [tokenBlock, tokenDocPart, findTokenData, hf]

theorem absentEntryInert_witness :
    inertEntry.name ∉ (["bar"] : List String) ∧
    tokensFile ["bar"] (some (Metadata.mk [inertEntry, inertHost]))
      = tokensFile ["bar"] (some (Metadata.mk [inertHost])) :=
  ⟨by decide, absentEntryInert ["bar"] [] [inertHost] inertEntry (by decide)⟩

/-- Claim C8: when loading or parsing the metadata document fails, the run
proceeds with an empty metadata set and completes: the token-declarations
artifact gives every color token only the fixed annotation block and its
declaration line, and the other two artifacts are produced exactly as in any
successful run. -/
theorem metadataFailureRecovery (toks : List String) (ts : Themes) (e : String) :
    build toks ts (Except.error e)
      = { tokens := tokensFileHeader ++ concatAll (toks.map (fun token =>
              "\n\n" ++ fixedAnnotation ++ tokenDeclarationLine token)),
          mixins := mixinsFile toks,
          maps := themeMapsFile ts } := by
  have h1 : tokensFile toks none
      = tokensFileHeader ++ concatAll (toks.map (fun token =>
          "\n\n" ++ fixedAnnotation ++ tokenDeclarationLine token)) := by
    unfold tokensFile
    rw [foldl_append_concatAll]
    refine congrArg (tokensFileHeader ++ ·) (congrArg concatAll (map_congr_mem _ _ toks ?_))
    intro token _
    simp [tokenBlock, tokenDocPart, findTokenData, strAppend_empty]
  show BuildOutputs.mk (tokensFile toks (loadMetadata (Except.error e)))
      (mixinsFile toks) (themeMapsFile ts) = _
  rw [show loadMetadata (Except.error e : Except String MetaDoc) = none from rfl, h1]

/-- Claim C9: a formatter failure aborts the write phase with no retry.  The
writes happen in the order tokens, mixins, maps; when the formatter fails on
one body, exactly the artifacts formatted before it have been written, in
order, and nothing after the failing one is formatted or written; when the
formatter succeeds on all three bodies, all three artifacts are written in
order. -/
theorem formatFailureAborts (fmt : String → Except String String) (out : BuildOutputs) :
    (∀ e, fmt out.tokens = Except.error e →
        writePhase fmt out = ([], some e)) ∧
    (∀ t e, fmt out.tokens = Except.ok t → fmt out.mixins = Except.error e →
        writePhase fmt out = ([(Artifact.tokens, t)], some e)) ∧
    (∀ t mx e, fmt out.tokens = Except.ok t → fmt out.mixins = Except.ok mx →
        fmt out.maps = Except.error e →
        writePhase fmt out = ([(Artifact.tokens, t), (Artifact.mixins, mx)], some e)) ∧
    (∀ t mx mp, fmt out.tokens = Except.ok t → fmt out.mixins = Except.ok mx →
        fmt out.maps = Except.ok mp →
        writePhase fmt out
          = ([(Artifact.tokens, t), (Artifact.mixins, mx), (Artifact.maps, mp)], none)) := by
  refine ⟨fun e h1 => ?_, fun t e h1 h2 => ?_, fun t mx e h1 h2 h3 => ?_,
    fun t mx mp h1 h2 h3 => ?_⟩
  · simp [writePhase, h1]
  · simp [writePhase, h1, h2]
  · simp [writePhase, h1, h2, h3]
  · simp [writePhase, h1, h2, h3]

theorem formatFailureAborts_witness :
    failSecond (BuildOutputs.mk "A" "B" "C").tokens = Except.ok "A" ∧
    failSecond (BuildOutputs.mk "A" "B" "C").mixins = Except.error "boom" ∧
    writePhase failSecond (BuildOutputs.mk "A" "B" "C")
      = ([(Artifact.tokens, "A")], some "boom") :=
  ⟨rfl, rfl,
   (formatFailureAborts failSecond (BuildOutputs.mk "A" "B" "C")).2.1 "A" "boom" rfl rfl⟩

/-- Claim C10: when the metadata document loads and parses but normalization
itself throws (the parsed document has no token sequence), the run recovers
exactly as for a load or parse failure: the build outputs are identical to
those of a run whose metadata load failed outright. -/
theorem normalizeFailureRecovery (toks : List String) (ts : Themes) (doc : MetaDoc)
    (e : String) (h : doc.tokens = none) :
    build toks ts (Except.ok doc) = build toks ts (Except.error e) := by
  simp [build, loadMetadata, h]

theorem normalizeFailureRecovery_witness :
    build [] [] (Except.ok (MetaDoc.mk none)) = build [] [] (Except.error "load failure") :=
  normalizeFailureRecovery [] [] (MetaDoc.mk none) "load failure" rfl

end Carbon
